import Mathlib

/-!
Verification of the Surfer example plugin `examples/hexadecimal.py`.

The plugin registers one translator class, `HexTranslator`, whose single
operation `basic_translate(num_bits, value)` parses `value` as a Python
integer literal, formats it as a zero-padded lowercase hexadecimal display
string, and falls back to a warning pass-through on parse failure.

The embedding below follows the Python source line by line:
  * `pyIntParse` models `int(value)` for a `str` argument: strip surrounding
    whitespace, optional sign, decimal digits with single underscores allowed
    between digits (restricted to ASCII whitespace and ASCII digits);
  * `pyHex` models `hex(n)`, `strDrop2` models the slice `[2:]`;
  * `zfill` models `str.zfill(width)` including its sign-aware padding;
  * Python's floor division `num_bits // 4` is `Int.fdiv num_bits 4`;
  * the `try/except ValueError` block is modelled both directly
    (`basic_translate`, total) and with explicit exception propagation
    (`basic_translateExc`), to state that no exception escapes.
-/

/-- Modelled from the spec: the host module `surfer` (not part of this
repository slice) classifies a translation result as Normal, Warn or Error;
the data model lists exactly these three kinds. -/
inductive ValueKind where
  | Normal : ValueKind
  | Warn : ValueKind
  | Error : ValueKind
deriving DecidableEq, Repr

/-- The registration list `translators = ["HexTranslator"]`. -/
def translators : List String := ["HexTranslator"]

/-- ASCII whitespace accepted by Python's `int` around the digits
(space, tab, newline, carriage return, vertical tab, form feed). -/
def pyIsSpace (c : Char) : Bool :=
  c = ' ' || c = '\t' || c = '\n' || c = '\r' || c = Char.ofNat 11 || c = Char.ofNat 12

/-- Strip whitespace from both ends, as `int(str)` does before parsing. -/
def pyStrip (cs : List Char) : List Char :=
  ((cs.dropWhile pyIsSpace).reverse.dropWhile pyIsSpace).reverse

/-- Numeric value of an ASCII decimal digit. -/
def digitVal (c : Char) : Nat := c.toNat - 48

/-- Digits after the first one: Python's grammar `digit (["_"] digit)*`
(an underscore must sit between two digits; no doubled, leading or
trailing underscores). -/
def pyDigitsGo : List Char → Nat → Option Nat
  | [], acc => some acc
  | ['_'], _ => none
  | '_' :: c :: rest, acc =>
      if c.isDigit then pyDigitsGo rest (acc * 10 + digitVal c) else none
  | c :: rest, acc =>
      if c.isDigit then pyDigitsGo rest (acc * 10 + digitVal c) else none

/-- A nonempty run of decimal digits with optional single underscores
between digits, as accepted by Python's `int`. -/
def pyDigits (cs : List Char) : Option Nat :=
  match cs with
  | [] => none
  | c :: rest => if c.isDigit then pyDigitsGo rest (digitVal c) else none

/-- `int(value)` for a `str` argument: `some n` on success, `none` where
Python raises `ValueError`. -/
def pyIntParse (s : String) : Option Int :=
  match pyStrip s.data with
  | '+' :: rest => (pyDigits rest).map (fun m => (m : Int))
  | '-' :: rest => (pyDigits rest).map (fun m => -(m : Int))
  | cs => (pyDigits cs).map (fun m => (m : Int))

/-- Lowercase hexadecimal digit character for `d < 16`. -/
def hexChar (d : Nat) : Char :=
  if d < 10 then Char.ofNat (48 + d) else Char.ofNat (87 + d)

/-- Accumulator loop producing the hexadecimal digits of `n`, most
significant first; `fuel` bounds the recursion (any `fuel > n` is enough,
since the digit count of `n` never exceeds `n + 1`). -/
def natHexAux : Nat → Nat → List Char → List Char
  | 0, _, acc => acc
  | fuel + 1, n, acc =>
      if n < 16 then hexChar n :: acc
      else natHexAux fuel (n / 16) (hexChar (n % 16) :: acc)

/-- The lowercase hexadecimal digit string of a natural number
(`"0"` for zero, no prefix, no sign). -/
def hexList (n : Nat) : List Char := natHexAux (n + 1) n []

/-- Character list of Python's `hex(n)`: `0x` + digits for `n ≥ 0`,
`-0x` + digits of `|n|` for `n < 0`. -/
def pyHexData (n : Int) : List Char :=
  if 0 ≤ n then '0' :: 'x' :: hexList n.toNat
  else '-' :: '0' :: 'x' :: hexList (-n).toNat

/-- Python's `hex(n)` as a string. -/
def pyHex (n : Int) : String := String.mk (pyHexData n)

/-- The slice `s[2:]` (by code points, as Python slices). -/
def strDrop2 (s : String) : String := String.mk (s.data.drop 2)

/-- Character-list body of Python's `str.zfill(width)`: if the string is
already at least `width` characters, return it unchanged; otherwise pad
with zeros on the left, keeping a leading `+` or `-` in front of the pad. -/
def zfillData (l : List Char) (width : Int) : List Char :=
  if width ≤ (l.length : Int) then l
  else
    match l with
    | [] => List.replicate (width - (l.length : Int)).toNat '0'
    | c :: rest =>
        if c = '+' ∨ c = '-' then
          c :: (List.replicate (width - (l.length : Int)).toNat '0' ++ rest)
        else List.replicate (width - (l.length : Int)).toNat '0' ++ l

/-- Python's `str.zfill(width)`. -/
def zfill (s : String) (width : Int) : String := String.mk (zfillData s.data width)

namespace HexTranslator

/-- `HexTranslator.name = "Hexadecimal (Python)"`. -/
def name : String := "Hexadecimal (Python)"

/-- `HexTranslator.basic_translate`, the whole body of the Python method:
parse, hex-format with `zfill(num_bits // 4)` on success, warn-pass-through
on `ValueError`. -/
def basic_translate (num_bits : Int) (value : String) : String × ValueKind :=
  match pyIntParse value with
  | some n =>
      ("0x" ++ zfill (strDrop2 (pyHex n)) (Int.fdiv num_bits 4), ValueKind.Normal)
  | none => (value, ValueKind.Warn)

end HexTranslator

/-- Python exceptions relevant to the model: `ValueError` raised by `int`,
and a stand-in for any other exception kind. -/
inductive PyExn where
  | valueError : PyExn
  | otherError : PyExn
deriving DecidableEq, Repr

/-- `int(value)` with explicit exception propagation: raises `ValueError`
exactly where `pyIntParse` returns `none`. -/
def intPyExc (s : String) : Except PyExn Int :=
  match pyIntParse s with
  | some n => Except.ok n
  | none => Except.error PyExn.valueError

/-- The `try` block of `basic_translate`, with exceptions propagating: an
exception raised by `int(value)` aborts the block. -/
def basic_translateTry (num_bits : Int) (value : String) :
    Except PyExn (String × ValueKind) :=
  match intPyExc value with
  | Except.ok n =>
      Except.ok ("0x" ++ zfill (strDrop2 (pyHex n)) (Int.fdiv num_bits 4), ValueKind.Normal)
  | Except.error e => Except.error e

/-- `basic_translate` with its `except ValueError` handler: a `ValueError`
from the body is converted to the warn result; any other exception would
propagate. -/
def basic_translateExc (num_bits : Int) (value : String) :
    Except PyExn (String × ValueKind) :=
  match basic_translateTry num_bits value with
  | Except.ok r => Except.ok r
  | Except.error PyExn.valueError => Except.ok (value, ValueKind.Warn)
  | Except.error e => Except.error e

/-- Spec-side display for claim C1, following the claim's words: `0x`
followed by the lowercase hexadecimal representation of the integer
(a minus sign followed by the digits of the absolute value when negative),
left-padded with zeros to `num_bits // 4` characters. -/
def padZerosData (l : List Char) (width : Int) : List Char :=
  if width ≤ (l.length : Int) then l
  else List.replicate (width - (l.length : Int)).toNat '0' ++ l

/-- Spec-side display string of claim C1 for the parsed integer `n`. -/
def specDisplayC1 (num_bits n : Int) : String :=
  "0x" ++ String.mk (padZerosData
    (if n < 0 then '-' :: hexList (-n).toNat else hexList n.toNat)
    (Int.fdiv num_bits 4))

/-! ### Helper lemmas -/

/-- Every character produced by `natHexAux` comes from the accumulator or is
a hexadecimal digit character. -/
theorem natHexAux_mem (fuel : Nat) :
    ∀ (n : Nat) (acc : List Char) (c : Char), c ∈ natHexAux fuel n acc →
      c ∈ acc ∨ ∃ d, d < 16 ∧ c = hexChar d := by
  induction fuel with
  | zero => intro n acc c h; exact Or.inl h
  | succ fuel ih =>
      intro n acc c h
      unfold natHexAux at h
      by_cases hn : n < 16
      · rw [if_pos hn] at h
        rcases List.mem_cons.mp h with rfl | h
        · exact Or.inr ⟨n, hn, rfl⟩
        · exact Or.inl h
      · rw [if_neg hn] at h
        rcases ih (n / 16) (hexChar (n % 16) :: acc) c h with h | h
        · rcases List.mem_cons.mp h with rfl | h
          · exact Or.inr ⟨n % 16, Nat.mod_lt n (by omega), rfl⟩
          · exact Or.inl h
        · exact Or.inr h

/-- Hexadecimal digit characters are never a sign character. -/
theorem hexChar_ne_sign : ∀ d, d < 16 → hexChar d ≠ '+' ∧ hexChar d ≠ '-' := by
  decide

/-- The hexadecimal digit string of a natural number contains no sign
character. -/
theorem hexList_ne_sign (n : Nat) (c : Char) (h : c ∈ hexList n) :
    c ≠ '+' ∧ c ≠ '-' := by
  rcases natHexAux_mem (n + 1) n [] c h with h | ⟨d, hd, rfl⟩
  · cases h
  · exact hexChar_ne_sign d hd

/-- On a string whose characters include no sign, Python's `zfill` is plain
left-padding with zeros. -/
theorem zfillData_eq_padZerosData (l : List Char) (w : Int)
    (h : ∀ c ∈ l, c ≠ '+' ∧ c ≠ '-') : zfillData l w = padZerosData l w := by
  unfold zfillData padZerosData
  by_cases hw : w ≤ (l.length : Int)
  · rw [if_pos hw, if_pos hw]
  · rw [if_neg hw, if_neg hw]
    cases l with
    | nil => simp
    | cons c rest =>
        have hc := h c (List.mem_cons_self c rest)
        simp [hc.1, hc.2]

/-- No padding happens at a width at most the length (in particular at a
non-positive width). -/
theorem zfillData_of_le (l : List Char) (w : Int) (h : w ≤ (l.length : Int)) :
    zfillData l w = l := by
  unfold zfillData
  rw [if_pos h]

/-- Python's `num_bits // 4` is non-positive whenever `num_bits` is. -/
theorem fdiv_four_nonpos (a : Int) (h : a ≤ 0) : Int.fdiv a 4 ≤ 0 := by
  match a with
  | Int.ofNat m =>
      rw [Int.ofNat_eq_coe] at h
      have hm : m = 0 := by omega
      subst hm
      decide
  | Int.negSucc m =>
      have hred : Int.fdiv (Int.negSucc m) 4 = Int.negSucc (m / 4) := rfl
      rw [hred, Int.negSucc_eq]
      omega

/-- Shared helper: the handler catches the only exception the body can
raise, so `basic_translateExc` always returns `ok` with exactly the value
of the direct model. -/
theorem translateExc_eq_ok (num_bits : Int) (v : String) :
    basic_translateExc num_bits v =
      Except.ok (HexTranslator.basic_translate num_bits v) := by
  cases h : pyIntParse v <;>
    simp [basic_translateExc, basic_translateTry, intPyExc,
      HexTranslator.basic_translate, h]

/-! ### Claim theorems -/

/-- C1, counterexample: `"-5"` parses as the integer `-5`, but
`basic_translate(16, "-5")` returns `"0x00x5"` — the tail of Python's
signed hex literal `-0x5` zero-filled — not `0x` followed by the zero-padded
lowercase hexadecimal representation of `-5`, which would be `"0x00-5"`. -/
theorem basic_translate_hex_display_counterexample :
    pyIntParse "-5" = some (-5) ∧
    HexTranslator.basic_translate 16 "-5" = ("0x00x5", ValueKind.Normal) ∧
    HexTranslator.basic_translate 16 "-5" ≠ (specDisplayC1 16 (-5), ValueKind.Normal) := by
  refine ⟨by decide, by decide, ?_⟩
  decide

/-- C1, amended: for every string value that parses as a *non-negative*
integer and every bit width, `basic_translate` returns `0x` followed by the
lowercase hexadecimal representation of that integer left-padded with zeros
to `num_bits // 4` characters, with kind Normal. -/
theorem basic_translate_hex_display (num_bits : Int) (v : String) (n : Int)
    (hp : pyIntParse v = some n) (hn : 0 ≤ n) :
    HexTranslator.basic_translate num_bits v =
      (specDisplayC1 num_bits n, ValueKind.Normal) := by
  simp only [HexTranslator.basic_translate, hp]
  have h1 : strDrop2 (pyHex n) = String.mk (hexList n.toNat) := by
    unfold strDrop2 pyHex pyHexData
    rw [if_pos hn]
    rfl
  rw [h1]
  unfold zfill specDisplayC1
  rw [if_neg (by omega : ¬n < 0)]
  have h2 : (String.mk (hexList n.toNat)).data = hexList n.toNat := rfl
  rw [h2, zfillData_eq_padZerosData _ _ (fun c hc => hexList_ne_sign n.toNat c hc)]

/-- C1, witness for the amended theorem at `num_bits = 12`, `value = "255"`. -/
theorem basic_translate_hex_display_witness :
    pyIntParse "255" = some 255 ∧ (0 : Int) ≤ 255 ∧
    HexTranslator.basic_translate 12 "255" = (specDisplayC1 12 255, ValueKind.Normal) :=
  ⟨by decide, by decide, basic_translate_hex_display 12 "255" 255 (by decide) (by decide)⟩

/-- C2: for every string that does not parse as an integer and every bit
width, `basic_translate` returns the input unchanged with kind Warn. -/
theorem basic_translate_warn_passthrough (num_bits : Int) (v : String)
    (h : pyIntParse v = none) :
    HexTranslator.basic_translate num_bits v = (v, ValueKind.Warn) := by
  simp only [HexTranslator.basic_translate, h]

/-- C2, witness at `num_bits = 8`, `value = "abc"`. -/
theorem basic_translate_warn_passthrough_witness :
    pyIntParse "abc" = none ∧
    HexTranslator.basic_translate 8 "abc" = ("abc", ValueKind.Warn) :=
  ⟨by decide, basic_translate_warn_passthrough 8 "abc" (by decide)⟩

/-- C3: no exception escapes `basic_translate`: in the model with explicit
exception propagation, every call returns `ok`, with the parse failure
already converted by the handler into the Warn result. -/
theorem basic_translate_no_exception (num_bits : Int) (v : String) :
    basic_translateExc num_bits v =
      Except.ok (HexTranslator.basic_translate num_bits v) :=
  translateExc_eq_ok num_bits v

/-- C4: the result kind is Warn exactly when the value fails to parse as an
integer, and Normal exactly when it parses. -/
theorem basic_translate_kind_iff (num_bits : Int) (v : String) :
    ((HexTranslator.basic_translate num_bits v).2 = ValueKind.Warn ↔
      pyIntParse v = none) ∧
    ((HexTranslator.basic_translate num_bits v).2 = ValueKind.Normal ↔
      ∃ n, pyIntParse v = some n) := by
  cases h : pyIntParse v <;> simp [HexTranslator.basic_translate, h]

/-- C5: the three concrete examples from the spec. -/
theorem basic_translate_examples :
    HexTranslator.basic_translate 16 "255" = ("0x00ff", ValueKind.Normal) ∧
    HexTranslator.basic_translate 8 "abc" = ("abc", ValueKind.Warn) ∧
    HexTranslator.basic_translate 4 "15" = ("0xf", ValueKind.Normal) := by
  refine ⟨by decide, by decide, by decide⟩

/-- C6: `basic_translate` is deterministic: equal inputs give equal
results (the embedding is a pure function of its two arguments; the source
method reads and writes no other state). -/
theorem basic_translate_deterministic (nb nb' : Int) (v v' : String)
    (h1 : nb = nb') (h2 : v = v') :
    HexTranslator.basic_translate nb v = HexTranslator.basic_translate nb' v' := by
  rw [h1, h2]

/-- C6, witness at `num_bits = 16`, `value = "255"`. -/
theorem basic_translate_deterministic_witness :
    HexTranslator.basic_translate 16 "255" = HexTranslator.basic_translate 16 "255" :=
  basic_translate_deterministic 16 16 "255" "255" rfl rfl

/-- C7: the registration list is exactly `["HexTranslator"]`, and the
`HexTranslator` class (whose translate operation is
`HexTranslator.basic_translate`) has display name `"Hexadecimal (Python)"`. -/
theorem hex_translator_registration :
    translators = ["HexTranslator"] ∧
    HexTranslator.name = "Hexadecimal (Python)" ∧
    ∀ num_bits v, HexTranslator.basic_translate num_bits v =
      HexTranslator.basic_translate num_bits v :=
  ⟨rfl, rfl, fun _ _ => rfl⟩

/-- C8: the kind returned is always Normal or Warn; `ValueKind.Error` is
never produced. -/
theorem basic_translate_never_error (num_bits : Int) (v : String) :
    ((HexTranslator.basic_translate num_bits v).2 = ValueKind.Normal ∨
      (HexTranslator.basic_translate num_bits v).2 = ValueKind.Warn) ∧
    (HexTranslator.basic_translate num_bits v).2 ≠ ValueKind.Error := by
  cases h : pyIntParse v <;> simp [HexTranslator.basic_translate, h]

/-- C9: parsing is lenient: surrounding whitespace, a leading `+` sign and
underscore digit separators are accepted with kind Normal, and the display
is computed from the parsed integer (the translation agrees with that of
the plain decimal string). -/
theorem basic_translate_lenient (num_bits : Int) :
    pyIntParse " 10 " = some 10 ∧ pyIntParse "+5" = some 5 ∧
    pyIntParse "1_0" = some 10 ∧
    HexTranslator.basic_translate num_bits " 10 " =
      HexTranslator.basic_translate num_bits "10" ∧
    (HexTranslator.basic_translate num_bits " 10 ").2 = ValueKind.Normal ∧
    HexTranslator.basic_translate num_bits "+5" =
      HexTranslator.basic_translate num_bits "5" ∧
    (HexTranslator.basic_translate num_bits "+5").2 = ValueKind.Normal ∧
    HexTranslator.basic_translate num_bits "1_0" =
      HexTranslator.basic_translate num_bits "10" ∧
    (HexTranslator.basic_translate num_bits "1_0").2 = ValueKind.Normal := by
  have hA : pyIntParse " 10 " = some 10 := by decide
  have hB : pyIntParse "10" = some 10 := by decide
  have hC : pyIntParse "+5" = some 5 := by decide
  have hD : pyIntParse "5" = some 5 := by decide
  have hE : pyIntParse "1_0" = some 10 := by decide
  refine ⟨hA, hC, hE, ?_, ?_, ?_, ?_, ?_, ?_⟩ <;>
    simp [HexTranslator.basic_translate, hA, hB, hC, hD, hE]

/-- C10: `basic_translate` is total in `num_bits`: for a zero or negative
bit width it still returns normally, and the zero padding is applied to a
non-positive target width, i.e. the hex digits are not padded at all. -/
theorem basic_translate_nonpos_bits (num_bits : Int) (v : String) (n : Int)
    (hb : num_bits ≤ 0) (hp : pyIntParse v = some n) :
    basic_translateExc num_bits v =
      Except.ok (HexTranslator.basic_translate num_bits v) ∧
    HexTranslator.basic_translate num_bits v =
      ("0x" ++ strDrop2 (pyHex n), ValueKind.Normal) := by
  refine ⟨translateExc_eq_ok num_bits v, ?_⟩
  simp only [HexTranslator.basic_translate, hp]
  have hw : Int.fdiv num_bits 4 ≤ 0 := fdiv_four_nonpos num_bits hb
  have hlen : Int.fdiv num_bits 4 ≤ ((strDrop2 (pyHex n)).data.length : Int) :=
    le_trans hw (Int.natCast_nonneg _)
  unfold zfill
  rw [zfillData_of_le _ _ hlen]

/-- C10, witness at `num_bits = -8` and `num_bits = 0` with `value = "255"`. -/
theorem basic_translate_nonpos_bits_witness :
    ((-8 : Int) ≤ 0 ∧ pyIntParse "255" = some 255 ∧
      HexTranslator.basic_translate (-8) "255" =
        ("0x" ++ strDrop2 (pyHex 255), ValueKind.Normal)) ∧
    ((0 : Int) ≤ 0 ∧
      HexTranslator.basic_translate 0 "255" =
        ("0x" ++ strDrop2 (pyHex 255), ValueKind.Normal)) :=
  ⟨⟨by decide, by decide,
      (basic_translate_nonpos_bits (-8) "255" 255 (by decide) (by decide)).2⟩,
    ⟨by decide,
      (basic_translate_nonpos_bits 0 "255" 255 (by decide) (by decide)).2⟩⟩
